import Mathlib

set_option maxRecDepth 40000

deriving instance DecidableEq for Except

/-!
Verification of the nuntius messaging core against its source.

Bytes are modelled as `List Nat` (each entry a byte value); Go slices map to
lists, Go `nil` slices to `[]`. Fallible Go functions returning `(T, error)`
become `Except String T`; functions that mutate a receiver through a pointer
return the new state explicitly. External library primitives (curve25519,
ed25519, AES-GCM, SHA-512) are parameters of a `Prims` structure; everything
implemented inside the repository (SHA-256-based KDFs via Go's hmac/hkdf call
pattern, the X3DH combiners, the double ratchet, the server store, the router,
the chat client) is translated concretely from the source.
-/

/-- One byte of a 32-bit word mask. -/
def mask32 : Nat := 4294967296

/-- Go `copy(dst[off:], src)`: overwrite `dst` starting at `off` with as many
bytes of `src` as fit, leaving the rest of `dst` unchanged. -/
def goCopy (dst : List Nat) (off : Nat) (src : List Nat) : List Nat :=
  dst.take off ++ src.take (dst.length - off) ++ dst.drop (off + src.length)

/-- Right rotation of a 32-bit word (FIPS 180-4). -/
def rotr32 (n x : Nat) : Nat := ((x >>> n) ||| (x <<< (32 - n))) % mask32

/-- SHA-256 `Ch(x,y,z)`. -/
def shaCh (x y z : Nat) : Nat := (x &&& y) ^^^ ((x ^^^ 4294967295) &&& z)

/-- SHA-256 `Maj(x,y,z)`. -/
def shaMaj (x y z : Nat) : Nat := (x &&& y) ^^^ (x &&& z) ^^^ (y &&& z)

/-- SHA-256 `Σ₀`. -/
def bsig0 (x : Nat) : Nat := rotr32 2 x ^^^ rotr32 13 x ^^^ rotr32 22 x

/-- SHA-256 `Σ₁`. -/
def bsig1 (x : Nat) : Nat := rotr32 6 x ^^^ rotr32 11 x ^^^ rotr32 25 x

/-- SHA-256 `σ₀`. -/
def ssig0 (x : Nat) : Nat := rotr32 7 x ^^^ rotr32 18 x ^^^ (x >>> 3)

/-- SHA-256 `σ₁`. -/
def ssig1 (x : Nat) : Nat := rotr32 17 x ^^^ rotr32 19 x ^^^ (x >>> 10)

/-- The eight SHA-256 initial hash words. -/
structure Hash8 where
  a : Nat
  b : Nat
  c : Nat
  d : Nat
  e : Nat
  f : Nat
  g : Nat
  h : Nat
deriving DecidableEq

/-- SHA-256 initial state H0..H7. -/
def sha256Init : Hash8 :=
  ⟨1779033703, 3144134277, 1013904242, 2773480762,
   1359893119, 2600822924, 528734635, 1541459225⟩

/-- The 64 SHA-256 round constants. -/
def sha256K : List Nat :=
  [1116352408, 1899447441, 3049323471, 3921009573,
   961987163, 1508970993, 2453635748, 2870763221,
   3624381080, 310598401, 607225278, 1426881987,
   1925078388, 2162078206, 2614888103, 3248222580,
   3835390401, 4022224774, 264347078, 604807628,
   770255983, 1249150122, 1555081692, 1996064986,
   2554220882, 2821834349, 2952996808, 3210313671,
   3336571891, 3584528711, 113926993, 338241895,
   666307205, 773529912, 1294757372, 1396182291,
   1695183700, 1986661051, 2177026350, 2456956037,
   2730485921, 2820302411, 3259730800, 3345764771,
   3516065817, 3600352804, 4094571909, 275423344,
   430227734, 506948616, 659060556, 883997877,
   958139571, 1322822218, 1537002063, 1747873779,
   1955562222, 2024104815, 2227730452, 2361852424,
   2428436474, 2756734187, 3204031479, 3329325298]

/-- Group a byte list into big-endian 32-bit words. -/
def toWords : List Nat → List Nat
  | b0 :: b1 :: b2 :: b3 :: rest =>
    ((b0 <<< 24) ||| (b1 <<< 16) ||| (b2 <<< 8) ||| b3) :: toWords rest
  | _ => []

/-- Extend the message schedule by `n` further words; the schedule is kept
reversed (most recent word first) while extending. -/
def extendWordsRev (rev : List Nat) : Nat → List Nat
  | 0 => rev
  | n + 1 =>
    let next := (ssig1 (rev.getD 1 0) + rev.getD 6 0 +
                 ssig0 (rev.getD 14 0) + rev.getD 15 0) % mask32
    extendWordsRev (next :: rev) n

/-- One SHA-256 round applied to the working variables. -/
def sha256Round (t : Hash8) (kw : Nat × Nat) : Hash8 :=
  let t1 := (t.h + bsig1 t.e + shaCh t.e t.f t.g + kw.1 + kw.2) % mask32
  let t2 := (bsig0 t.a + shaMaj t.a t.b t.c) % mask32
  ⟨(t1 + t2) % mask32, t.a, t.b, t.c, (t.d + t1) % mask32, t.e, t.f, t.g⟩

/-- SHA-256 compression of one 64-byte block. -/
def sha256Compress (st : Hash8) (block : List Nat) : Hash8 :=
  let w := (extendWordsRev (toWords block).reverse 48).reverse
  let r := (sha256K.zip w).foldl sha256Round st
  ⟨(st.a + r.a) % mask32, (st.b + r.b) % mask32, (st.c + r.c) % mask32,
   (st.d + r.d) % mask32, (st.e + r.e) % mask32, (st.f + r.f) % mask32,
   (st.g + r.g) % mask32, (st.h + r.h) % mask32⟩

/-- Process `n` 64-byte blocks of `data`. -/
def sha256Blocks (st : Hash8) : Nat → List Nat → Hash8
  | 0, _ => st
  | n + 1, data => sha256Blocks (sha256Compress st (data.take 64)) n (data.drop 64)

/-- Big-endian 8-byte encoding of a 64-bit length. -/
def lenBytes64 (n : Nat) : List Nat :=
  [(n >>> 56) &&& 255, (n >>> 48) &&& 255, (n >>> 40) &&& 255, (n >>> 32) &&& 255,
   (n >>> 24) &&& 255, (n >>> 16) &&& 255, (n >>> 8) &&& 255, n &&& 255]

/-- SHA-256 padding: `0x80`, zeros, then the 64-bit big-endian bit length. -/
def sha256Pad (msg : List Nat) : List Nat :=
  msg ++ [128] ++ List.replicate ((119 - msg.length % 64) % 64) 0 ++ lenBytes64 (msg.length * 8)

/-- Big-endian serialization of one 32-bit word. -/
def wordBytes (w : Nat) : List Nat :=
  [(w >>> 24) &&& 255, (w >>> 16) &&& 255, (w >>> 8) &&& 255, w &&& 255]

/-- Serialize the eight-word state to the 32-byte digest. -/
def hashBytes (st : Hash8) : List Nat :=
  wordBytes st.a ++ wordBytes st.b ++ wordBytes st.c ++ wordBytes st.d ++
  wordBytes st.e ++ wordBytes st.f ++ wordBytes st.g ++ wordBytes st.h

/-- SHA-256 of a byte string. -/
def sha256 (msg : List Nat) : List Nat :=
  let p := sha256Pad msg
  hashBytes (sha256Blocks sha256Init (p.length / 64) p)

/-- HMAC-SHA-256 (FIPS 198-1): key hashed if longer than the 64-byte block,
zero-padded, then the nested opad/ipad hashes. -/
def hmacSha256 (key msg : List Nat) : List Nat :=
  let k0 := if 64 < key.length then sha256 key else key
  let kp := k0 ++ List.replicate (64 - k0.length) 0
  sha256 ((kp.map (fun b => b ^^^ 92)) ++ sha256 ((kp.map (fun b => b ^^^ 54)) ++ msg))

/-- Go `hash.Hash` object returned by `hmac.New(sha256.New, key)`: the key and
the bytes written so far. `Write` never fails for this hash, so the checked
error branches in the source are unreachable and the model is total. -/
structure GoHmac where
  key : List Nat
  buf : List Nat

/-- `hmac.New(sha256.New, key)`. -/
def hmacNew (key : List Nat) : GoHmac := ⟨key, []⟩

/-- `hash.Write(data)`. -/
def hmacWrite (h : GoHmac) (data : List Nat) : GoHmac := ⟨h.key, h.buf ++ data⟩

/-- `hash.Sum(nil)`: the HMAC of everything written since the last reset. -/
def hmacSum (h : GoHmac) : List Nat := hmacSha256 h.key h.buf

/-- `hash.Reset()`. -/
def hmacReset (h : GoHmac) : GoHmac := ⟨h.key, []⟩

/-- `kdfChainKey` from `internal/crypto/ratchet.go`: write the byte 0 and sum
for the new chain key, reset, write the byte 1 and sum for the message key. -/
def kdfChainKey (ck : List Nat) : List Nat × List Nat :=
  let h0 := hmacNew ck
  let h1 := hmacWrite h0 [0]
  let newCk := hmacSum h1
  let h2 := hmacReset h1
  let h3 := hmacWrite h2 [1]
  let mk := hmacSum h3
  (newCk, mk)

/-- Info string `"Nuntius Root Key KDF 2021-06-20"`. -/
def kdfRootKeyInfo : List Nat :=
  [78, 117, 110, 116, 105, 117, 115, 32, 82, 111, 111, 116, 32, 75, 101, 121,
   32, 75, 68, 70, 32, 50, 48, 50, 49, 45, 48, 54, 45, 50, 48]

/-- `kdfRootKey` from `internal/crypto/ratchet.go`:
`hkdf.New(sha256.New, dhOut, rk, info)` (extract `PRK = HMAC(rk, dhOut)`, then
expand `T1 = HMAC(PRK, info ∥ 1)`, `T2 = HMAC(PRK, T1 ∥ info ∥ 2)`), from which
the source reads 32 bytes of new root key followed by 32 bytes of chain key. -/
def kdfRootKey (rk dhOut : List Nat) : List Nat × List Nat :=
  let prk := hmacSha256 rk dhOut
  let t1 := hmacSha256 prk (kdfRootKeyInfo ++ [1])
  let t2 := hmacSha256 prk (t1 ++ kdfRootKeyInfo ++ [2])
  ((t1 ++ t2).take 32, ((t1 ++ t2).drop 32).take 32)

/-- The external cryptographic primitives the repository calls: X25519
(`curve25519.X25519`), SHA-512, the Edwards-to-Montgomery point map
(`edwards25519.Point.BytesMontgomery`), HKDF over SHA-512 read to a requested
length, AES-GCM seal/open, and Ed25519 signature verification. -/
structure Prims where
  dh : List Nat → List Nat → Except String (List Nat)
  sha512 : List Nat → List Nat
  edPointToMont : List Nat → Except String (List Nat)
  hkdfSha512 : List Nat → List Nat → List Nat → Nat → List Nat
  aeadSeal : List Nat → List Nat → List Nat → List Nat → List Nat
  aeadOpen : List Nat → List Nat → List Nat → List Nat → Except String (List Nat)
  edVerify : List Nat → List Nat → List Nat → Bool

/-- `IdentityPriv.toExchange`: SHA-512 of the first 32 bytes of the identity
secret, truncated to a 32-byte exchange scalar. -/
def toExchangePriv (prims : Prims) (priv : List Nat) : List Nat :=
  (prims.sha512 (priv.take 32)).take 32

/-- `curve25519.Basepoint`: 9 followed by 31 zero bytes. -/
def basePoint : List Nat := 9 :: List.replicate 31 0

/-- `GenerateExchange`: draw a 32-byte scalar (here passed in), multiply the
base point. -/
def genExchange (prims : Prims) (scalar : List Nat) : Except String (List Nat × List Nat) :=
  match prims.dh scalar basePoint with
  | .error e => .error e
  | .ok point => .ok (point, scalar)

/-- `ExchangePubFromBytes`: exactly 32 bytes. -/
def ExchangePubFromBytes (b : List Nat) : Except String (List Nat) :=
  if b.length = 32 then .ok b else .error "incorrect ExchangePub size"

/-- Info string `"Nuntius X3DH KDF 2021-06-06"`. -/
def exchangeInfo : List Nat :=
  [78, 117, 110, 116, 105, 117, 115, 32, 88, 51, 68, 72, 32, 75, 68, 70,
   32, 50, 48, 50, 49, 45, 48, 54, 45, 48, 54]

/-- Parameters of `ForwardExchange` (the initiator's side). -/
structure ForwardExchangeParams where
  me : List Nat
  ephemeral : List Nat
  identity : List Nat
  prekey : List Nat
  onetime : Option (List Nat)

/-- `ForwardExchange` from the crypto package: DH1 = DH(meX, SPK),
DH2 = DH(eph, themX), DH3 = DH(eph, SPK), DH4 = DH(eph, OPK) if present,
copied in order into a 128-byte buffer (truncated to 96 bytes without OPK),
then HKDF-SHA-512 with nil salt and the X3DH info, reading 32 bytes. -/
def ForwardExchange (prims : Prims) (params : ForwardExchangeParams) :
    Except String (List Nat) :=
  let meX := toExchangePriv prims params.me
  match prims.edPointToMont params.identity with
  | .error e => .error e
  | .ok idX =>
    match prims.dh meX params.prekey with
    | .error e => .error e
    | .ok dh1 =>
      match prims.dh params.ephemeral idX with
      | .error e => .error e
      | .ok dh2 =>
        match prims.dh params.ephemeral params.prekey with
        | .error e => .error e
        | .ok dh3 =>
          let secret :=
            goCopy (goCopy (goCopy (List.replicate 128 0) 0 dh1) 32 dh2) 64 dh3
          match params.onetime with
          | none => .ok (prims.hkdfSha512 (secret.take 96) [] exchangeInfo 32)
          | some onetime =>
            match prims.dh params.ephemeral onetime with
            | .error e => .error e
            | .ok dh4 => .ok (prims.hkdfSha512 (goCopy secret 96 dh4) [] exchangeInfo 32)

/-- Parameters of `BackwardExchange` (the recipient's side). -/
structure BackwardExchangeParams where
  them : List Nat
  ephemeral : List Nat
  identity : List Nat
  prekey : List Nat
  onetime : Option (List Nat)

/-- `BackwardExchange` from the crypto package: DH1 = DH(SPKpriv, themX),
DH2 = DH(idX, ephPub), DH3 = DH(SPKpriv, ephPub), DH4 = DH(OPKpriv, ephPub)
if present, combined exactly as in `ForwardExchange`. -/
def BackwardExchange (prims : Prims) (params : BackwardExchangeParams) :
    Except String (List Nat) :=
  match prims.edPointToMont params.them with
  | .error e => .error e
  | .ok themX =>
    let idX := toExchangePriv prims params.identity
    match prims.dh params.prekey themX with
    | .error e => .error e
    | .ok dh1 =>
      match prims.dh idX params.ephemeral with
      | .error e => .error e
      | .ok dh2 =>
        match prims.dh params.prekey params.ephemeral with
        | .error e => .error e
        | .ok dh3 =>
          let secret :=
            goCopy (goCopy (goCopy (List.replicate 128 0) 0 dh1) 32 dh2) 64 dh3
          match params.onetime with
          | none => .ok (prims.hkdfSha512 (secret.take 96) [] exchangeInfo 32)
          | some onetime =>
            match prims.dh onetime params.ephemeral with
            | .error e => .error e
            | .ok dh4 => .ok (prims.hkdfSha512 (goCopy secret 96 dh4) [] exchangeInfo 32)

/-- `MessageKey.Encrypt` / `SharedKey.Encrypt` from `internal/crypto/encrypt.go`:
AES-GCM with a fresh 12-byte nonce (passed in), output `nonce ∥ sealed`. -/
def sharedEncrypt (prims : Prims) (key nonce plaintext additional : List Nat) : List Nat :=
  nonce ++ prims.aeadSeal key nonce plaintext additional

/-- `MessageKey.Decrypt` / `SharedKey.Decrypt`: split the 12-byte nonce prefix
and open; error when the blob is shorter than a nonce. -/
def sharedDecrypt (prims : Prims) (key ciphertext additional : List Nat) :
    Except String (List Nat) :=
  if ciphertext.length < 12 then .error "ciphertext doesn't contain nonce"
  else prims.aeadOpen key (ciphertext.take 12) (ciphertext.drop 12) additional

/-- The double ratchet state of `internal/crypto/ratchet.go`; absent (nil) keys
are `[]`. -/
structure DoubleRatchet where
  sendingPub : List Nat
  sendingPriv : List Nat
  receivingPub : List Nat
  rootKey : List Nat
  sendingKey : List Nat
  receivingKey : List Nat
deriving DecidableEq

/-- `DoubleRatchetFromInitiator`: remember the peer's signed prekey, generate a
fresh exchange pair (scalar passed in), and derive root and sending keys from
the shared secret and a DH with the prekey. -/
def ratchetFromInitiator (prims : Prims) (scalar secret receivingPub : List Nat) :
    Except String DoubleRatchet :=
  match genExchange prims scalar with
  | .error e => .error e
  | .ok pair =>
    match prims.dh pair.2 receivingPub with
    | .error e => .error e
    | .ok exchanged =>
      let rs := kdfRootKey secret exchanged
      .ok ⟨pair.1, pair.2, receivingPub, rs.1, rs.2, []⟩

/-- `DoubleRatchetFromReceiver`: sending pair is the signed prekey pair, the
root key is the shared secret; chains start absent. -/
def ratchetFromReceiver (secret pub priv : List Nat) : DoubleRatchet :=
  ⟨pub, priv, [], secret, [], []⟩

/-- `DoubleRatchet.Encrypt`: advance the sending chain, then emit
`sendingPub ∥ AEAD(messageKey, plaintext, sendingPub ∥ additional)`. The state
update happens before encryption, exactly as in the source. -/
def ratchetEncrypt (prims : Prims) (nonce : List Nat) (r : DoubleRatchet)
    (plaintext additional : List Nat) : DoubleRatchet × List Nat :=
  let ks := kdfChainKey r.sendingKey
  let r1 := {r with sendingKey := ks.1}
  let header := r.sendingPub
  (r1, header ++ sharedEncrypt prims ks.2 nonce plaintext (header ++ additional))

/-- The symmetric tail of `DoubleRatchet.Decrypt`: advance the receiving chain,
then open the remaining ciphertext; the chain advance persists even when the
AEAD open fails, as in the source. -/
def ratchetDecryptTail (prims : Prims) (r : DoubleRatchet)
    (header rest additional : List Nat) : DoubleRatchet × Except String (List Nat) :=
  let ks := kdfChainKey r.receivingKey
  let r1 := {r with receivingKey := ks.1}
  match sharedDecrypt prims ks.2 rest (header ++ additional) with
  | .error e => (r1, .error e)
  | .ok plaintext => (r1, .ok plaintext)

/-- `DoubleRatchet.Decrypt`: length check, then a DH ratchet step when the
32-byte header differs from `receivingPub` (each field assignment of the
source happens in order, so a failure returns the partially updated state),
then the symmetric receiving-chain step. -/
def ratchetDecrypt (prims : Prims) (freshScalar : List Nat) (r : DoubleRatchet)
    (ciphertext additional : List Nat) : DoubleRatchet × Except String (List Nat) :=
  if ciphertext.length < 32 then (r, .error "ciphertext does not contain public key")
  else
    let header := ciphertext.take 32
    let rest := ciphertext.drop 32
    if header == r.receivingPub then
      ratchetDecryptTail prims r header rest additional
    else
      let r1 := {r with receivingPub := header}
      match prims.dh r1.sendingPriv r1.receivingPub with
      | .error e => (r1, .error e)
      | .ok receivingExchange =>
        let p := kdfRootKey r1.rootKey receivingExchange
        let r2 := {r1 with rootKey := p.1, receivingKey := p.2}
        match genExchange prims freshScalar with
        | .error e => (r2, .error e)
        | .ok pair =>
          let r3 := {r2 with sendingPub := pair.1, sendingPriv := pair.2}
          match prims.dh r3.sendingPriv r3.receivingPub with
          | .error e => (r3, .error e)
          | .ok sendingExchange =>
            let q := kdfRootKey r3.rootKey sendingExchange
            let r4 := {r3 with rootKey := q.1, sendingKey := q.2}
            ratchetDecryptTail prims r4 header rest additional

/-- The bytes of the UTF-8 header `"nuntiusの公開鍵"`. -/
def identityPubHeader : List Nat :=
  [110, 117, 110, 116, 105, 117, 115, 227, 129, 174, 229, 133, 172, 233, 150, 139, 233, 141, 181]

/-- Lowercase hex digit character for a value below 16. -/
def hexDigitChar (d : Nat) : Nat := if d < 10 then 48 + d else 87 + d

/-- `hex.EncodeToString`: two lowercase hex characters per byte. -/
def hexEncode : List Nat → List Nat
  | [] => []
  | b :: bs => hexDigitChar (b / 16) :: hexDigitChar (b % 16) :: hexEncode bs

/-- One hex character to its value; `hex.DecodeString` accepts digits and both
letter cases. -/
def decodeHexDigit (c : Nat) : Option Nat :=
  if 48 ≤ c ∧ c ≤ 57 then some (c - 48)
  else if 97 ≤ c ∧ c ≤ 102 then some (c - 87)
  else if 65 ≤ c ∧ c ≤ 70 then some (c - 55)
  else none

/-- `hex.DecodeString`: pairs of hex characters; odd length or an invalid
character fails. -/
def hexDecode : List Nat → Option (List Nat)
  | [] => some []
  | [_] => none
  | c1 :: c2 :: rest =>
    match decodeHexDigit c1, decodeHexDigit c2, hexDecode rest with
    | some hi, some lo, some bs => some ((16 * hi + lo) :: bs)
    | _, _, _ => none

/-- `IdentityPub.String`: the fixed header followed by lowercase hex. -/
def identityPubString (pub : List Nat) : List Nat :=
  identityPubHeader ++ hexEncode pub

/-- `IdentityPubFromString`: require the header, hex-decode the remainder,
require exactly 32 decoded bytes. -/
def IdentityPubFromString (s : List Nat) : Except String (List Nat) :=
  if identityPubHeader.isPrefixOf s then
    match hexDecode (s.drop identityPubHeader.length) with
    | none => .error "encoding hex: invalid byte"
    | some bs =>
      if bs.length = 32 then .ok bs
      else .error "decoded identity has incorrect length"
  else .error "identity has incorrect header"

/-- `BundleFromBytes`: any byte length that is a multiple of the 32-byte
exchange key size is accepted as a bundle. -/
def BundleFromBytes (data : List Nat) : Except String (List Nat) :=
  if data.length % 32 = 0 then .ok data
  else .error "data is not a multiple of exchange key size"

/-- `BundlePub.Get`: the 32-byte key at an index. -/
def bundleGet (bundle : List Nat) (i : Nat) : List Nat :=
  (bundle.drop (i * 32)).take 32

/-- `BundlePub.Len`: byte length divided by the key size. -/
def bundleLen (bundle : List Nat) : Nat := bundle.length / 32

/-- `GenerateBundle`'s loop: 64 exchange generations (scalars passed in by
index), each public key copied into the fixed 2048-byte buffer. -/
def generateBundleAux (prims : Prims) (scalars : List (List Nat)) :
    Nat → Nat → List Nat → List (List Nat) →
    Except String (List Nat × List (List Nat))
  | 0, _, pubB, privAcc => .ok (pubB, privAcc.reverse)
  | n + 1, i, pubB, privAcc =>
    match genExchange prims (scalars.getD i []) with
    | .error e => .error e
    | .ok pair =>
      generateBundleAux prims scalars n (i + 1) (goCopy pubB (i * 32) pair.1) (pair.2 :: privAcc)

/-- `GenerateBundle`: 64 pairs, the public bundle serialized into
`64 * 32 = 2048` bytes. -/
def generateBundle (prims : Prims) (scalars : List (List Nat)) :
    Except String (List Nat × List (List Nat)) :=
  generateBundleAux prims scalars 64 0 (List.replicate 2048 0) []

/-- The relay's durable store: one prekey row per identity
`(identity, prekey, signature)` and the one-time rows `(identity, onetime)` in
insertion (rowid) order. -/
structure ServerState where
  prekeys : List (List Nat × List Nat × List Nat)
  onetimes : List (List Nat × List Nat)
deriving DecidableEq

/-- `server.getPrekey`: the row for an identity, or `sql.ErrNoRows`. -/
def getPrekey (s : ServerState) (id : List Nat) : Except String (List Nat × List Nat) :=
  match s.prekeys.find? (fun r => r.1 == id) with
  | none => .error "sql: no rows in result set"
  | some r => .ok r.2

/-- `server.getOnetime`: in one transaction, select the first one-time row of
the identity, then `DELETE FROM onetime WHERE onetime = $1` — the delete is
keyed on the one-time bytes alone, with no identity or rowid filter; rollback
(state unchanged) when no row matches. -/
def getOnetime (s : ServerState) (id : List Nat) : ServerState × Except String (List Nat) :=
  match s.onetimes.find? (fun r => r.1 == id) with
  | none => (s, .error "sql: no rows in result set")
  | some r =>
    (⟨s.prekeys, s.onetimes.filter (fun q => !(q.2 == r.2))⟩, .ok r.2)

/-- `server.saveBundle`: insert `(identity, bundle.Get i)` for every
`i < bundle.Len()` in one transaction. -/
def saveBundle (s : ServerState) (id bundle : List Nat) : ServerState :=
  ⟨s.prekeys,
   s.onetimes ++ (List.range (bundleLen bundle)).map (fun i => (id, bundleGet bundle i))⟩

/-- `server.onetimeHandler` after base64 identity parsing: parse the bundle,
verify its signature, save it; errors leave the store unchanged. -/
def onetimeHandler (prims : Prims) (s : ServerState) (id reqBundle reqSig : List Nat) :
    ServerState × Except String Unit :=
  match BundleFromBytes reqBundle with
  | .error e => (s, .error e)
  | .ok bundle =>
    if prims.edVerify id bundle reqSig then (saveBundle s id bundle, .ok ())
    else (s, .error "bad signature")

/-- `server.sessionHandler` after base64 identity parsing: look up the prekey,
burn a one-time key, and answer `(prekey, sig, onetime)`. -/
def sessionHandler (s : ServerState) (id : List Nat) :
    ServerState × Except String (List Nat × List Nat × List Nat) :=
  match getPrekey s id with
  | .error e => (s, .error e)
  | .ok pk =>
    match getOnetime s id with
    | (s1, .error e) => (s1, .error e)
    | (s1, .ok ot) => (s1, .ok (pk.1, pk.2, ot))

/-- `n` sequential `session/{id}` requests, collecting each response. -/
def runSessions : Nat → ServerState → List Nat →
    List (Except String (List Nat × List Nat × List Nat)) × ServerState
  | 0, s, _ => ([], s)
  | n + 1, s, id =>
    let step := sessionHandler s id
    let rest := runSessions n step.1 id
    (step.2 :: rest.1, rest.2)

/-- A typed payload variant of `internal/server/api.go`. -/
inductive PayloadV where
  | queryExchange : PayloadV
  | startExchange (prekey sig onetime : List Nat) : PayloadV
  | endExchange (prekey onetime ephemeral : List Nat) : PayloadV
  | message (data : List Nat) : PayloadV
deriving DecidableEq

/-- A routed frame; Go's nil `From` is the empty list. -/
structure Message where
  fromId : List Nat
  toId : List Nat
  payload : PayloadV
deriving DecidableEq

/-- The observable effect of one iteration of `router.listen` on a parsed
frame. `blocked` models a Go send on the nil channel obtained when the
recipient is absent from the channel map: such a send blocks forever, so the
loop never reaches the next frame. -/
inductive RouteEffect where
  | dropped : RouteEffect
  | reply (m : Message) : RouteEffect
  | deliver (recipient : List Nat) (m : Message) : RouteEffect
  | blocked : RouteEffect
deriving DecidableEq

/-- One iteration of `router.listen` for identity `senderId` on a parsed frame:
length-check the recipient, look up the recipient's channel, and either answer
a `query_exchange` on the sender's own channel (dropping it when the recipient
is unregistered or a store lookup fails) or forward the frame with `From`
overridden — the forward path sends on the looked-up channel without checking
presence. -/
def listenStep (table : List (List Nat)) (s : ServerState) (senderId : List Nat)
    (msg : Message) : ServerState × RouteEffect :=
  if !(msg.toId.length == 32) then (s, .dropped)
  else
    let present := table.contains msg.toId
    match msg.payload with
    | .queryExchange =>
      if !present then (s, .dropped)
      else
        match getPrekey s msg.toId with
        | .error _ => (s, .dropped)
        | .ok pk =>
          match getOnetime s msg.toId with
          | (s1, .error _) => (s1, .dropped)
          | (s1, .ok ot) =>
            (s1, .reply ⟨[], senderId, .startExchange pk.1 pk.2 ot⟩)
    | _ =>
      if present then (s, .deliver msg.toId ⟨senderId, msg.toId, msg.payload⟩)
      else (s, .blocked)

/-- The chat loop state of `StartChat` after the handshake: the X3DH shared
secret used as the encryption key, and the additional data. No ratchet state
exists. -/
structure ChatSession where
  key : List Nat
  additional : List Nat
deriving DecidableEq

/-- The client's local store rows used by the responder: prekey and one-time
tables mapping public to private keys. -/
structure ClientStoreState where
  prekeys : List (List Nat × List Nat)
  onetimes : List (List Nat × List Nat)
deriving DecidableEq

/-- `clientDatabase.GetPrekey`: private half of a stored prekey. -/
def clientGetPrekey (s : ClientStoreState) (pub : List Nat) : Except String (List Nat) :=
  match s.prekeys.find? (fun r => r.1 == pub) with
  | none => .error "sql: no rows in result set"
  | some r => .ok r.2

/-- `clientDatabase.BurnOnetime`: select the private half by public key, then
delete every row with that public key, in one transaction. -/
def clientBurnOnetime (s : ClientStoreState) (pub : List Nat) :
    ClientStoreState × Except String (List Nat) :=
  match s.onetimes.find? (fun r => r.1 == pub) with
  | none => (s, .error "sql: no rows in result set")
  | some r =>
    (⟨s.prekeys, s.onetimes.filter (fun q => !(q.1 == pub))⟩, .ok r.2)

/-- The `StartExchangePayload` branch of `StartChat` (the initiator):
additional data `me ∥ them`, verify the prekey signature, generate an
ephemeral, run `ForwardExchange`, and emit the `end_exchange` frame. The
resulting session key is the X3DH secret itself. -/
def initiatorSession (prims : Prims) (me myPriv them ephScalar : List Nat)
    (vPrekey vSig vOnetime : List Nat) : Except String (ChatSession × Message) :=
  let additional := me ++ them
  match ExchangePubFromBytes vPrekey with
  | .error e => .error e
  | .ok prekey =>
    if !(prims.edVerify them vPrekey vSig) then .error "couldn't verify prekey signature"
    else
      match ExchangePubFromBytes vOnetime with
      | .error e => .error e
      | .ok onetime =>
        match genExchange prims ephScalar with
        | .error e => .error e
        | .ok eph =>
          match ForwardExchange prims ⟨myPriv, eph.2, them, prekey, some onetime⟩ with
          | .error e => .error e
          | .ok key =>
            .ok (⟨key, additional⟩, ⟨me, them, .endExchange prekey onetime eph.1⟩)

/-- The `EndExchangePayload` branch of `StartChat` (the responder): additional
data `them ∥ me`, look up the named prekey, burn the named one-time key, run
`BackwardExchange`. -/
def responderSession (prims : Prims) (me myPriv them : List Nat)
    (store : ClientStoreState) (vPrekey vOnetime vEphemeral : List Nat) :
    Except String (ChatSession × ClientStoreState) :=
  let additional := them ++ me
  match ExchangePubFromBytes vEphemeral with
  | .error e => .error e
  | .ok ephemeral =>
    match ExchangePubFromBytes vPrekey with
    | .error e => .error e
    | .ok prekey =>
      match ExchangePubFromBytes vOnetime with
      | .error e => .error e
      | .ok onetime =>
        match clientGetPrekey store prekey with
        | .error e => .error e
        | .ok prekeyPriv =>
          match clientBurnOnetime store onetime with
          | (_, .error e) => .error e
          | (store1, .ok onetimePriv) =>
            match BackwardExchange prims ⟨them, ephemeral, myPriv, prekeyPriv, some onetimePriv⟩ with
            | .error e => .error e
            | .ok key => .ok (⟨key, additional⟩, store1)

/-- One iteration of `StartChat`'s send goroutine: encrypt the text with the
session key via the plain AEAD `Encrypt` and wrap it in a `message` payload. -/
def chatSendStep (prims : Prims) (sess : ChatSession) (me them nonce plaintext : List Nat) :
    Message :=
  ⟨me, them, .message (sharedEncrypt prims sess.key nonce plaintext sess.additional)⟩

/-- One iteration of `StartChat`'s receive goroutine: skip frames whose `From`
is not the peer, decrypt `message` payloads with the session key via the plain
AEAD `Decrypt`, ignore other variants. -/
def chatRecvStep (prims : Prims) (sess : ChatSession) (them : List Nat) (msg : Message) :
    Option (Except String (List Nat)) :=
  if !(msg.fromId == them) then none
  else
    match msg.payload with
    | .message data => some (sharedDecrypt prims sess.key data sess.additional)
    | _ => none

/-- Whether an `Except` is a success. -/
def isOkB {ε α : Type} : Except ε α → Bool
  | .ok _ => true
  | .error _ => false

/-- The `data` field of a `message` payload, `[]` otherwise. -/
def payloadData (m : Message) : List Nat :=
  match m.payload with
  | .message d => d
  | _ => []

/-- A commutative toy point-multiplication byte mix used to instantiate the
abstract DH in witnesses and counterexamples. -/
def wMix (a b : Nat) : Nat := (a * b + a + b) % 256

/-- A total instantiation of the external primitives: a commutative DH with
public keys equal to secrets, identity SHA-512, identity point conversion, a
deterministic HKDF of the requested length, and an AEAD that appends a 16-byte
tag. -/
def wPrims : Prims where
  dh := fun scalar point => .ok (List.zipWith wMix scalar point)
  sha512 := fun l => l
  edPointToMont := fun p => .ok p
  hkdfSha512 := fun ikm salt info n => (ikm ++ salt ++ info ++ List.replicate n 0).take n
  aeadSeal := fun _ _ pt _ => pt ++ List.replicate 16 0
  aeadOpen := fun _ _ ct _ =>
    if 16 ≤ ct.length then .ok (ct.take (ct.length - 16))
    else .error "cipher: message authentication failed"
  edVerify := fun _ _ _ => true

/-- Like `wPrims`, but the DH rejects the all-zero (low-order) point, as
`curve25519.X25519` does. -/
def cPrims : Prims where
  dh := fun scalar point =>
    if point.all (fun b => b == 0) then .error "bad input point: low order point"
    else .ok (List.zipWith wMix scalar point)
  sha512 := fun l => l
  edPointToMont := fun p => .ok p
  hkdfSha512 := fun ikm salt info n => (ikm ++ salt ++ info ++ List.replicate n 0).take n
  aeadSeal := fun _ _ pt _ => pt ++ List.replicate 16 0
  aeadOpen := fun _ _ ct _ =>
    if 16 ≤ ct.length then .ok (ct.take (ct.length - 16))
    else .error "cipher: message authentication failed"
  edVerify := fun _ _ _ => true

/-- Concrete chat inputs: initiator identity. -/
def c2me : List Nat := List.replicate 32 7

/-- Concrete chat inputs: initiator identity secret. -/
def c2myPriv : List Nat := List.replicate 64 7

/-- Concrete chat inputs: responder identity. -/
def c2them : List Nat := List.replicate 32 8

/-- Concrete chat inputs: initiator ephemeral scalar. -/
def c2eph : List Nat := List.replicate 32 9

/-- Concrete chat inputs: the ephemeral public key named in `end_exchange`. -/
def c2ephPub : List Nat := List.replicate 32 9

/-- Concrete chat inputs: responder signed prekey public key. -/
def c2prekey : List Nat := List.replicate 32 10

/-- Concrete chat inputs: prekey signature. -/
def c2sig : List Nat := List.replicate 64 0

/-- Concrete chat inputs: responder one-time public key. -/
def c2onetime : List Nat := List.replicate 32 11

/-- Concrete chat inputs: AEAD nonce. -/
def c2nonce : List Nat := List.replicate 12 1

/-- Concrete chat inputs: plaintext. -/
def c2pt : List Nat := [65, 66]

/-- Concrete chat inputs: the scalar a ratchet construction would draw. -/
def c2scalar2 : List Nat := List.replicate 32 12

/-- The initiator handshake on the concrete inputs. -/
def c2sessE : Except String (ChatSession × Message) :=
  initiatorSession cPrims c2me c2myPriv c2them c2eph c2prekey c2sig c2onetime

/-- The concrete initiator session. -/
def c2sess : ChatSession :=
  match c2sessE with
  | .ok p => p.1
  | .error _ => ⟨[], []⟩

/-- The concrete `end_exchange` frame of the initiator handshake. -/
def c2out : Message :=
  match c2sessE with
  | .ok p => p.2
  | .error _ => ⟨[], [], .queryExchange⟩

/-- The message-payload bytes the source's send loop emits on the concrete
inputs. -/
def c2data : List Nat :=
  payloadData (chatSendStep cPrims c2sess c2me c2them c2nonce c2pt)

/-- The initiator-role double ratchet the claim says the client constructs
from the same shared secret and prekey. -/
def c2ratchet : DoubleRatchet :=
  match ratchetFromInitiator cPrims c2scalar2 c2sess.key c2prekey with
  | .ok r => r
  | .error _ => ratchetFromReceiver [] [] []

/-- The bytes `DoubleRatchet.Encrypt` would emit for the same plaintext,
nonce, and additional data. -/
def c2ratchetData : List Nat :=
  (ratchetEncrypt cPrims c2nonce c2ratchet c2pt c2sess.additional).2

/-- A concrete responder-side client store holding the named prekey and
one-time key. -/
def c2store : ClientStoreState :=
  ⟨[(List.replicate 32 10, List.replicate 32 13)],
   [(List.replicate 32 11, List.replicate 32 14)]⟩

/-- The responder handshake on the concrete inputs. -/
def c2respE : Except String (ChatSession × ClientStoreState) :=
  responderSession cPrims c2me c2myPriv c2them c2store c2prekey c2onetime c2ephPub

/-- The concrete responder session and mutated store. -/
def c2resp : ChatSession × ClientStoreState :=
  match c2respE with
  | .ok p => p
  | .error _ => (⟨[], []⟩, ⟨[], []⟩)

/-- A concrete ratchet state. -/
def c3State : DoubleRatchet :=
  ⟨List.replicate 32 1, List.replicate 32 2, List.replicate 32 3,
   List.replicate 32 4, List.replicate 32 5, List.replicate 32 6⟩

/-- A ciphertext whose header is the all-zero point, different from
`c3State.receivingPub`. -/
def c3ct : List Nat := List.replicate 33 0

/-- A ciphertext whose header equals `c3State.receivingPub`. -/
def c6ct : List Nat := List.replicate 32 3 ++ List.replicate 30 7

/-- 64 pairwise-distinct one-time keys. -/
def c4ks : List (List Nat) := (List.range 64).map (fun i => [i])

/-- A concrete 32-byte identity key. -/
def c9pub : List Nat := List.replicate 32 171

/-- The concrete generated bundle. -/
def c10res : List Nat × List (List Nat) :=
  match generateBundle cPrims [] with
  | .ok r => r
  | .error _ => ([], [])

theorem hashBytes_length (st : Hash8) : (hashBytes st).length = 32 := by
  simp [hashBytes, wordBytes]

theorem sha256_length (msg : List Nat) : (sha256 msg).length = 32 := by
  simp [sha256, hashBytes_length]

theorem hmacSha256_length (key msg : List Nat) : (hmacSha256 key msg).length = 32 := by
  simp [hmacSha256, sha256_length]

/-- Claim C7: `kdfChainKey` returns exactly the pair
`(HMAC-SHA-256(chain, 0x00), HMAC-SHA-256(chain, 0x01))` — the new chain key
keyed on byte 0 and the message key keyed on byte 1 — and each output is 32
bytes. -/
theorem kdfChainKey_hmac_spec (ck : List Nat) :
    kdfChainKey ck = (hmacSha256 ck [0], hmacSha256 ck [1]) ∧
    (kdfChainKey ck).1.length = 32 ∧ (kdfChainKey ck).2.length = 32 := by
  refine ⟨rfl, ?_, ?_⟩ <;>
    simp [kdfChainKey, hmacNew, hmacWrite, hmacReset, hmacSum, hmacSha256_length]

/-- Claim C5 (code bug): a parsed frame carrying a non-`query_exchange`
payload for an unregistered recipient makes the listen loop send on the nil
channel from the missing map entry, which blocks forever instead of dropping
the frame and continuing. -/
theorem route_unregistered_recipient_blocks :
    listenStep [] ⟨[], []⟩ (List.replicate 32 1)
      ⟨List.replicate 32 1, List.replicate 32 2, .message [7]⟩
      = (⟨[], []⟩, RouteEffect.blocked) := by decide

/-- Claim C3 is false on the code: on this concrete input `Decrypt` fails (the
DH of the ratchet step rejects the all-zero header point) yet the state has
already been mutated — `receivingPub` now holds the attacker-supplied header. -/
theorem decrypt_error_state_changed_cex :
    isOkB (ratchetDecrypt cPrims [] c3State c3ct []).2 = false ∧
    (ratchetDecrypt cPrims [] c3State c3ct []).1 ≠ c3State := by decide

/-- Claim C3 (amended): only the failure on a blob shorter than 32 bytes
leaves the ratchet state unchanged; later failures return the partially
advanced state. -/
theorem decrypt_short_input_state_unchanged (prims : Prims) (scalar : List Nat)
    (r : DoubleRatchet) (ct ad : List Nat) (h : ct.length < 32) :
    ratchetDecrypt prims scalar r ct ad =
      (r, .error "ciphertext does not contain public key") := by
  unfold ratchetDecrypt
  rw [if_pos h]

/-- Witness for `decrypt_short_input_state_unchanged` at a 2-byte blob. -/
theorem decrypt_short_input_state_unchanged_witness :
    ([9, 9] : List Nat).length < 32 ∧
    ratchetDecrypt cPrims [] c3State [9, 9] [] =
      (c3State, .error "ciphertext does not contain public key") :=
  ⟨by decide, decrypt_short_input_state_unchanged cPrims [] c3State [9, 9] [] (by decide)⟩

/-- Claim C6: when the 32-byte header equals the current `receivingPub`, only
the symmetric step runs — `receivingKey` becomes the new chain key from
`kdfChainKey` and every other field is unchanged, whatever the AEAD outcome. -/
theorem decrypt_same_header_symmetric_only (prims : Prims) (scalar : List Nat)
    (r : DoubleRatchet) (ct ad : List Nat) (hlen : 32 ≤ ct.length)
    (hhdr : ct.take 32 = r.receivingPub) :
    (ratchetDecrypt prims scalar r ct ad).1 =
      {r with receivingKey := (kdfChainKey r.receivingKey).1} := by
  unfold ratchetDecrypt
  rw [if_neg (by omega)]
  simp only [hhdr, beq_self_eq_true, if_true]
  unfold ratchetDecryptTail
  cases hsd : sharedDecrypt prims (kdfChainKey r.receivingKey).2 (ct.drop 32)
      (r.receivingPub ++ ad) <;> simp [hsd]

/-- Witness for `decrypt_same_header_symmetric_only` at a concrete state and
ciphertext. -/
theorem decrypt_same_header_symmetric_only_witness :
    32 ≤ c6ct.length ∧ c6ct.take 32 = c3State.receivingPub ∧
    (ratchetDecrypt cPrims [] c3State c6ct []).1 =
      {c3State with receivingKey := (kdfChainKey c3State.receivingKey).1} :=
  ⟨by decide, by decide,
   decrypt_same_header_symmetric_only cPrims [] c3State c6ct [] (by decide) (by decide)⟩

/-- Claim C8 is false on the code: dispensing for identity `[1]` also deletes
the row of identity `[2]` that happens to hold the same one-time bytes,
because the delete is keyed on the bytes alone. -/
theorem getOnetime_cross_identity_delete_cex :
    (getOnetime ⟨[], [([1], [9]), ([2], [9])]⟩ [1]).2 = .ok [9] ∧
    (getOnetime ⟨[], [([1], [9]), ([2], [9])]⟩ [1]).1.onetimes = [] := by decide

/-- Claim C8 (amended): a successful dispense removes every row whose one-time
bytes equal the selected value, regardless of identity or row id; on error the
transaction rolls back and the store is unchanged. -/
theorem getOnetime_delete_by_bytes :
    (∀ (s : ServerState) (id k : List Nat), (getOnetime s id).2 = .ok k →
       (getOnetime s id).1 = ⟨s.prekeys, s.onetimes.filter (fun q => !(q.2 == k))⟩)
    ∧ (∀ (s : ServerState) (id : List Nat), isOkB (getOnetime s id).2 = false →
       (getOnetime s id).1 = s) := by
  constructor
  · intro s id k h
    unfold getOnetime at h ⊢
    cases hf : s.onetimes.find? (fun r => r.1 == id) with
    | none => rw [hf] at h; simp at h
    | some row =>
      rw [hf] at h
      simp only [Except.ok.injEq] at h
      subst h
      rfl
  · intro s id h
    unfold getOnetime at h ⊢
    cases hf : s.onetimes.find? (fun r => r.1 == id) with
    | none => rfl
    | some row => rw [hf] at h; simp [isOkB] at h

/-- Witness for `getOnetime_delete_by_bytes` on a one-row store. -/
theorem getOnetime_delete_by_bytes_witness :
    (getOnetime ⟨[], [([1], [5])]⟩ [1]).2 = .ok [5] ∧
    (getOnetime ⟨[], [([1], [5])]⟩ [1]).1 =
      ⟨[], ([([1], [5])] : List (List Nat × List Nat)).filter (fun q => !(q.2 == [5]))⟩ :=
  ⟨by decide, getOnetime_delete_by_bytes.1 ⟨[], [([1], [5])]⟩ [1] [5] (by decide)⟩

theorem decodeHexDigit_hexDigitChar : ∀ d, d < 16 → decodeHexDigit (hexDigitChar d) = some d := by
  decide

theorem hexDecode_hexEncode : ∀ bs : List Nat, (∀ b ∈ bs, b < 256) →
    hexDecode (hexEncode bs) = some bs := by
  intro bs
  induction bs with
  | nil => intro _; rfl
  | cons b bs ih =>
    intro hb
    have hi : b / 16 < 16 := Nat.div_lt_of_lt_mul (hb b (List.mem_cons_self b bs))
    have lo : b % 16 < 16 := Nat.mod_lt _ (by omega)
    simp only [hexEncode, hexDecode, decodeHexDigit_hexDigitChar _ hi,
      decodeHexDigit_hexDigitChar _ lo, ih (fun x hx => hb x (List.mem_cons_of_mem _ hx))]
    have : 16 * (b / 16) + b % 16 = b := by omega
    rw [this]

theorem isPrefixOf_self_append (l m : List Nat) : l.isPrefixOf (l ++ m) = true := by
  rw [List.isPrefixOf_iff_prefix]
  exact l.prefix_append m

/-- Claim C9: for every 32-byte identity key the string form parses back to the
same bytes, and parsing succeeds only for strings that carry the fixed header
and whose remainder hex-decodes to exactly 32 bytes. -/
theorem identity_string_roundtrip :
    (∀ pub : List Nat, pub.length = 32 → (∀ b ∈ pub, b < 256) →
       IdentityPubFromString (identityPubString pub) = .ok pub)
    ∧ (∀ s r : List Nat, IdentityPubFromString s = .ok r →
       identityPubHeader.isPrefixOf s = true ∧
       hexDecode (s.drop identityPubHeader.length) = some r ∧ r.length = 32) := by
  constructor
  · intro pub hlen hb
    unfold IdentityPubFromString identityPubString
    rw [if_pos (isPrefixOf_self_append _ _), List.drop_left, hexDecode_hexEncode pub hb]
    simp [hlen]
  · intro s r h
    unfold IdentityPubFromString at h
    split at h
    · rename_i hp
      split at h
      · simp at h
      · rename_i bs hd
        split at h
        · rename_i hl
          simp only [Except.ok.injEq] at h
          subst h
          exact ⟨hp, hd, hl⟩
        · simp at h
    · simp at h

/-- Witness for `identity_string_roundtrip` on a concrete key. -/
theorem identity_string_roundtrip_witness :
    c9pub.length = 32 ∧ (∀ b ∈ c9pub, b < 256) ∧
    IdentityPubFromString (identityPubString c9pub) = .ok c9pub :=
  ⟨by decide, by decide, identity_string_roundtrip.1 c9pub (by decide) (by decide)⟩

theorem goCopy_length (dst : List Nat) (off : Nat) (src : List Nat) :
    (goCopy dst off src).length = dst.length := by
  simp [goCopy]
  omega

theorem generateBundleAux_length (prims : Prims) (scalars : List (List Nat)) :
    ∀ (n i : Nat) (pubB : List Nat) (acc : List (List Nat))
      (res : List Nat × List (List Nat)),
    generateBundleAux prims scalars n i pubB acc = .ok res → res.1.length = pubB.length := by
  intro n
  induction n with
  | zero =>
    intro i pubB acc res h
    simp only [generateBundleAux, Except.ok.injEq] at h
    rw [← h]
  | succ n ih =>
    intro i pubB acc res h
    unfold generateBundleAux at h
    cases hg : genExchange prims (scalars.getD i []) with
    | error e => rw [hg] at h; simp at h
    | ok pair =>
      rw [hg] at h
      have := ih (i + 1) (goCopy pubB (i * 32) pair.1) (pair.2 :: acc) res h
      rw [this, goCopy_length]

/-- Claim C10: `BundleFromBytes` accepts exactly the byte strings whose length
is a multiple of 32 (the empty string included); the upload path then inserts
`length / 32` rows with no check against the fixed bundle size, while
`GenerateBundle` itself always emits a `64 * 32`-byte public bundle. -/
theorem bundle_accepts_any_multiple :
    (∀ data : List Nat, (∃ b, BundleFromBytes data = .ok b) ↔ data.length % 32 = 0)
    ∧ (∀ (prims : Prims) (s : ServerState) (id data sig : List Nat),
       data.length % 32 = 0 → prims.edVerify id data sig = true →
       (onetimeHandler prims s id data sig).1.onetimes
         = s.onetimes ++ (List.range (data.length / 32)).map (fun i => (id, bundleGet data i)))
    ∧ (∀ (prims : Prims) (scalars : List (List Nat)) (res : List Nat × List (List Nat)),
       generateBundle prims scalars = .ok res → res.1.length = 64 * 32) := by
  refine ⟨?_, ?_, ?_⟩
  · intro data
    constructor
    · rintro ⟨b, hb⟩
      unfold BundleFromBytes at hb
      split at hb
      · assumption
      · simp at hb
    · intro h
      exact ⟨data, by simp [BundleFromBytes, h]⟩
  · intro prims s id data sig hlen hver
    simp [onetimeHandler, BundleFromBytes, hlen, hver, saveBundle, bundleLen]
  · intro prims scalars res h
    have := generateBundleAux_length prims scalars 64 0 (List.replicate 2048 0) [] res h
    simpa using this

/-- Witness for `bundle_accepts_any_multiple`: a single-key (32-byte) bundle —
not 64 keys — is accepted and inserted, and the concrete generated bundle has
2048 bytes. -/
theorem bundle_accepts_any_multiple_witness :
    ((List.replicate 32 5 : List Nat).length % 32 = 0) ∧
    (cPrims.edVerify [1] (List.replicate 32 5) [2] = true) ∧
    ((onetimeHandler cPrims ⟨[], []⟩ [1] (List.replicate 32 5) [2]).1.onetimes
       = [] ++ (List.range ((List.replicate 32 5 : List Nat).length / 32)).map
           (fun i => ([1], bundleGet (List.replicate 32 5) i))) ∧
    (generateBundle cPrims [] = .ok c10res) ∧ c10res.1.length = 64 * 32 :=
  ⟨by decide, by decide,
   bundle_accepts_any_multiple.2.1 cPrims ⟨[], []⟩ [1] (List.replicate 32 5) [2]
     (by decide) (by decide),
   by rfl,
   bundle_accepts_any_multiple.2.2 cPrims [] c10res (by rfl)⟩

theorem sessionHandler_step (id pk sig k : List Nat) (ks : List (List Nat))
    (hk : k ∉ ks) :
    sessionHandler ⟨[(id, pk, sig)], (k :: ks).map (fun k0 => (id, k0))⟩ id
      = (⟨[(id, pk, sig)], ks.map (fun k0 => (id, k0))⟩, .ok (pk, sig, k)) := by
  have hfil : ((ks.map fun k0 => (id, k0)).filter (fun q => !(q.2 == k)))
      = ks.map fun k0 => (id, k0) := by
    apply List.filter_eq_self.mpr
    intro q hq
    rcases List.mem_map.mp hq with ⟨k0, hk0, rfl⟩
    simp only [Bool.not_eq_eq_eq_not, Bool.not_true, beq_eq_false_iff_ne, ne_eq]
    intro hkk
    exact hk (hkk ▸ hk0)
  simp [sessionHandler, getPrekey, getOnetime, List.find?, hfil]

theorem runSessions_succ (n : Nat) (s : ServerState) (id : List Nat) :
    runSessions (n + 1) s id =
      ((sessionHandler s id).2 :: (runSessions n (sessionHandler s id).1 id).1,
       (runSessions n (sessionHandler s id).1 id).2) := rfl

theorem runSessions_exhausts (id pk sig : List Nat) :
    ∀ ks : List (List Nat), ks.Nodup →
    (runSessions (ks.length + 1) ⟨[(id, pk, sig)], ks.map (fun k => (id, k))⟩ id).1
      = ks.map (fun k => Except.ok (pk, sig, k))
        ++ [Except.error "sql: no rows in result set"] := by
  intro ks
  induction ks with
  | nil =>
    intro _
    simp [runSessions, sessionHandler, getPrekey, getOnetime, List.find?]
  | cons k ks ih =>
    intro hnd
    rw [List.nodup_cons] at hnd
    have hstep := sessionHandler_step id pk sig k ks hnd.1
    have hlen' : (k :: ks).length + 1 = (ks.length + 1) + 1 := by simp
    rw [hlen', runSessions_succ, hstep]
    show Except.ok (pk, sig, k) ::
        (runSessions (ks.length + 1) ⟨[(id, pk, sig)], ks.map (fun k0 => (id, k0))⟩ id).1
      = _
    rw [ih hnd.2]
    simp

/-- Claim C4: from a store holding, for one identity, exactly the 64 one-time
keys of an uploaded bundle, 64 sequential session dispenses return the 64
pairwise-distinct keys and the 65th returns an error; and a dispensed key is
gone from the store, so it can never be dispensed again. -/
theorem onetime_dispense_burn_exclusive :
    (∀ (id pk sig : List Nat) (ks : List (List Nat)), ks.length = 64 → ks.Nodup →
       (runSessions 65 ⟨[(id, pk, sig)], ks.map (fun k => (id, k))⟩ id).1
         = ks.map (fun k => Except.ok (pk, sig, k))
           ++ [Except.error "sql: no rows in result set"]
       ∧ (ks.map (fun k => (pk, sig, k))).Nodup)
    ∧ (∀ (s : ServerState) (id k : List Nat), (getOnetime s id).2 = .ok k →
       ∀ r ∈ (getOnetime s id).1.onetimes, r.2 ≠ k) := by
  constructor
  · intro id pk sig ks hlen hnd
    have h := runSessions_exhausts id pk sig ks hnd
    rw [hlen] at h
    refine ⟨h, ?_⟩
    apply hnd.map
    intro a b hab
    simpa using congrArg (fun p => p.2.2) hab
  · intro s id k h r hr
    unfold getOnetime at h hr
    cases hf : s.onetimes.find? (fun q => q.1 == id) with
    | none => rw [hf] at h; simp at h
    | some row =>
      rw [hf] at h hr
      simp only [Except.ok.injEq] at h
      subst h
      simp only [List.mem_filter] at hr
      simpa using hr.2

/-- Witness for `onetime_dispense_burn_exclusive` on 64 concrete keys. -/
theorem onetime_dispense_burn_exclusive_witness :
    c4ks.length = 64 ∧ c4ks.Nodup ∧
    ((runSessions 65 ⟨[([1], [2], [3])], c4ks.map (fun k => ([1], k))⟩ [1]).1
       = c4ks.map (fun k => Except.ok ([2], [3], k))
         ++ [Except.error "sql: no rows in result set"]) :=
  ⟨by decide, by decide,
   (onetime_dispense_burn_exclusive.1 [1] [2] [3] c4ks (by decide) (by decide)).1⟩

theorem ForwardExchange_ok_length (prims : Prims)
    (hklen : ∀ ikm salt info n, (prims.hkdfSha512 ikm salt info n).length = n)
    (params : ForwardExchangeParams) (k : List Nat)
    (h : ForwardExchange prims params = .ok k) : k.length = 32 := by
  unfold ForwardExchange at h
  dsimp only at h
  cases hdh1 : prims.dh (toExchangePriv prims params.me) params.prekey with
  | error e =>
    rw [hdh1] at h
    repeat' split at h
    all_goals simp_all
  | ok dh1 =>
    rw [hdh1] at h
    repeat' split at h
    all_goals try simp only [Except.ok.injEq] at h
    all_goals first
      | (rw [← h]; exact hklen _ _ _ _)
      | simp at h

/-- Claim C1: for matching key material — an abstract keypair relation `KP`
under which the external X25519 is symmetric — `ForwardExchange` run with the
initiator's secrets and `BackwardExchange` run with the responder's secrets
return identical results, both with and without a one-time key, and a
successful exchange is 32 bytes. -/
theorem forwardBackwardExchange_symm (prims : Prims)
    (KP : List Nat → List Nat → Prop)
    (hsym : ∀ a ap b bp, KP a ap → KP b bp → prims.dh a bp = prims.dh b ap)
    (hklen : ∀ ikm salt info n, (prims.hkdfSha512 ikm salt info n).length = n)
    (aPriv aPub bPriv bPub ephPriv ephPub spkPriv spkPub otkPriv otkPub montA montB : List Nat)
    (hA : prims.edPointToMont aPub = .ok montA)
    (hB : prims.edPointToMont bPub = .ok montB)
    (hKa : KP (toExchangePriv prims aPriv) montA)
    (hKb : KP (toExchangePriv prims bPriv) montB)
    (hKe : KP ephPriv ephPub)
    (hKs : KP spkPriv spkPub)
    (hKo : KP otkPriv otkPub) :
    (ForwardExchange prims ⟨aPriv, ephPriv, bPub, spkPub, some otkPub⟩
       = BackwardExchange prims ⟨aPub, ephPub, bPriv, spkPriv, some otkPriv⟩
     ∧ ∀ k, ForwardExchange prims ⟨aPriv, ephPriv, bPub, spkPub, some otkPub⟩ = .ok k →
         k.length = 32)
    ∧ (ForwardExchange prims ⟨aPriv, ephPriv, bPub, spkPub, none⟩
       = BackwardExchange prims ⟨aPub, ephPub, bPriv, spkPriv, none⟩
     ∧ ∀ k, ForwardExchange prims ⟨aPriv, ephPriv, bPub, spkPub, none⟩ = .ok k →
         k.length = 32) := by
  have h1 : prims.dh (toExchangePriv prims aPriv) spkPub = prims.dh spkPriv montA :=
    hsym _ _ _ _ hKa hKs
  have h2 : prims.dh ephPriv montB = prims.dh (toExchangePriv prims bPriv) ephPub :=
    hsym _ _ _ _ hKe hKb
  have h3 : prims.dh ephPriv spkPub = prims.dh spkPriv ephPub := hsym _ _ _ _ hKe hKs
  have h4 : prims.dh ephPriv otkPub = prims.dh otkPriv ephPub := hsym _ _ _ _ hKe hKo
  refine ⟨⟨?_, fun k => ForwardExchange_ok_length prims hklen _ k⟩,
          ⟨?_, fun k => ForwardExchange_ok_length prims hklen _ k⟩⟩ <;>
    simp only [ForwardExchange, BackwardExchange, hA, hB, h1, h2, h3, h4]

theorem zipWith_wMix_comm (a b : List Nat) :
    List.zipWith wMix a b = List.zipWith wMix b a :=
  List.zipWith_comm_of_comm wMix
    (fun x y => by unfold wMix; rw [Nat.mul_comm, Nat.add_right_comm]) a b

/-- Witness for `forwardBackwardExchange_symm`: the toy commutative DH of
`wPrims` on concrete key material, with and without the one-time key. -/
theorem forwardBackwardExchange_symm_witness :
    (ForwardExchange wPrims ⟨List.replicate 64 1, List.replicate 32 3, List.replicate 32 2,
        List.replicate 32 4, some (List.replicate 32 5)⟩
      = BackwardExchange wPrims ⟨List.replicate 32 1, List.replicate 32 3, List.replicate 64 2,
        List.replicate 32 4, some (List.replicate 32 5)⟩)
    ∧ (ForwardExchange wPrims ⟨List.replicate 64 1, List.replicate 32 3, List.replicate 32 2,
        List.replicate 32 4, none⟩
      = BackwardExchange wPrims ⟨List.replicate 32 1, List.replicate 32 3, List.replicate 64 2,
        List.replicate 32 4, none⟩) := by
  have h := forwardBackwardExchange_symm wPrims (fun x xp => xp = x)
    (by intro a ap b bp ha hb
        subst ha; subst hb
        show Except.ok (List.zipWith wMix ap bp) = Except.ok (List.zipWith wMix bp ap)
        rw [zipWith_wMix_comm])
    (by intro ikm salt info n; simp [wPrims]; omega)
    (List.replicate 64 1) (List.replicate 32 1) (List.replicate 64 2) (List.replicate 32 2)
    (List.replicate 32 3) (List.replicate 32 3) (List.replicate 32 4) (List.replicate 32 4)
    (List.replicate 32 5) (List.replicate 32 5) (List.replicate 32 1) (List.replicate 32 2)
    rfl rfl (by decide) (by decide) rfl rfl rfl
  exact ⟨h.1.1, h.2.1⟩

theorem exchangePubFromBytes_ok {b v : List Nat} (h : ExchangePubFromBytes b = .ok v) :
    v = b := by
  unfold ExchangePubFromBytes at h
  split at h
  · simp only [Except.ok.injEq] at h
    exact h.symm
  · simp at h

theorem genExchange_ok_scalar {prims : Prims} {s : List Nat}
    {pair : List Nat × List Nat} (h : genExchange prims s = .ok pair) : pair.2 = s := by
  unfold genExchange at h
  cases hd : prims.dh s basePoint with
  | error e => rw [hd] at h; simp at h
  | ok point => rw [hd] at h; simp only [Except.ok.injEq] at h; rw [← h]

/-- Claim C2 is false on the code: on concrete inputs the payload the send
loop emits is the plain AEAD encryption under the X3DH secret (30 bytes for a
2-byte text), not the output `DoubleRatchet.Encrypt` would produce from the
session's ratchet (62 bytes: a 32-byte header precedes nonce, ciphertext, and
tag) — `StartChat` never constructs a ratchet. -/
theorem startChat_send_not_ratchet_cex :
    isOkB c2sessE = true ∧
    isOkB (ratchetFromInitiator cPrims c2scalar2 c2sess.key c2prekey) = true ∧
    c2data.length = 30 ∧ c2ratchetData.length = 62 ∧ c2data ≠ c2ratchetData := by
  refine ⟨by decide, by decide, by decide, by decide, by decide⟩

/-- Claim C2 (amended): after the handshake, message payloads are encrypted
and decrypted directly with the AEAD under the X3DH shared secret — the
initiator with additional data `me ∥ them` and key `ForwardExchange(...)`,
the responder with `them ∥ me` and key `BackwardExchange(...)` — and no
Double Ratchet is constructed or used. -/
theorem startChat_shared_secret_aead :
    (∀ (prims : Prims) (me myPriv them ephScalar vPrekey vSig vOnetime : List Nat)
       (sess : ChatSession) (out : Message),
       initiatorSession prims me myPriv them ephScalar vPrekey vSig vOnetime = .ok (sess, out) →
       sess.additional = me ++ them ∧
       ForwardExchange prims ⟨myPriv, ephScalar, them, vPrekey, some vOnetime⟩ = .ok sess.key ∧
       (∀ nonce pt, chatSendStep prims sess me them nonce pt =
          ⟨me, them, .message (sharedEncrypt prims sess.key nonce pt (me ++ them))⟩) ∧
       (∀ data, chatRecvStep prims sess them ⟨them, me, .message data⟩ =
          some (sharedDecrypt prims sess.key data (me ++ them))))
    ∧ (∀ (prims : Prims) (me myPriv them : List Nat) (store : ClientStoreState)
         (vPrekey vOnetime vEphemeral : List Nat) (sess : ChatSession)
         (store1 : ClientStoreState),
       responderSession prims me myPriv them store vPrekey vOnetime vEphemeral
         = .ok (sess, store1) →
       sess.additional = them ++ me ∧
       (∃ prekeyPriv onetimePriv,
          clientGetPrekey store vPrekey = .ok prekeyPriv ∧
          (clientBurnOnetime store vOnetime).2 = .ok onetimePriv ∧
          BackwardExchange prims ⟨them, vEphemeral, myPriv, prekeyPriv, some onetimePriv⟩
            = .ok sess.key) ∧
       (∀ nonce pt, chatSendStep prims sess me them nonce pt =
          ⟨me, them, .message (sharedEncrypt prims sess.key nonce pt (them ++ me))⟩) ∧
       (∀ data, chatRecvStep prims sess them ⟨them, me, .message data⟩ =
          some (sharedDecrypt prims sess.key data (them ++ me)))) := by
  constructor
  · intro prims me myPriv them ephScalar vPrekey vSig vOnetime sess out h
    unfold initiatorSession at h
    split at h
    · simp at h
    · rename_i prekey hpk
      split at h
      · simp at h
      · rename_i hver
        split at h
        · simp at h
        · rename_i onetime hot
          split at h
          · simp at h
          · rename_i eph heph
            split at h
            · simp at h
            · rename_i key hkey
              simp only [Except.ok.injEq, Prod.mk.injEq] at h
              obtain ⟨hsess, hout⟩ := h
              subst hsess
              have hpkeq : prekey = vPrekey := exchangePubFromBytes_ok hpk
              have hoteq : onetime = vOnetime := exchangePubFromBytes_ok hot
              have hepheq : eph.2 = ephScalar := genExchange_ok_scalar heph
              refine ⟨rfl, ?_, fun nonce pt => rfl, fun data => by simp [chatRecvStep]⟩
              rw [← hpkeq, ← hoteq, ← hepheq]
              exact hkey
  · intro prims me myPriv them store vPrekey vOnetime vEphemeral sess store1 h
    unfold responderSession at h
    split at h
    · simp at h
    · rename_i ephemeral heph
      split at h
      · simp at h
      · rename_i prekey hpk
        split at h
        · simp at h
        · rename_i onetime hot
          split at h
          · simp at h
          · rename_i prekeyPriv hpp
            split at h
            · simp at h
            · rename_i burnResult store2 onetimePriv hburn
              split at h
              · simp at h
              · rename_i key hkey
                simp only [Except.ok.injEq, Prod.mk.injEq] at h
                obtain ⟨hsess, hstore⟩ := h
                subst hsess
                have hpkeq : prekey = vPrekey := exchangePubFromBytes_ok hpk
                have hoteq : onetime = vOnetime := exchangePubFromBytes_ok hot
                have hepheq : ephemeral = vEphemeral := exchangePubFromBytes_ok heph
                refine ⟨rfl, ⟨prekeyPriv, onetimePriv, ?_, ?_, ?_⟩,
                  fun nonce pt => rfl, fun data => by simp [chatRecvStep]⟩
                · rw [← hpkeq]; exact hpp
                · rw [← hoteq, hburn]
                · rw [← hepheq]; exact hkey

/-- Witness for `startChat_shared_secret_aead` on the concrete handshake
inputs, both roles. -/
theorem startChat_shared_secret_aead_witness :
    (initiatorSession cPrims c2me c2myPriv c2them c2eph c2prekey c2sig c2onetime
       = .ok (c2sess, c2out) ∧ c2sess.additional = c2me ++ c2them)
    ∧ (responderSession cPrims c2me c2myPriv c2them c2store c2prekey c2onetime c2ephPub
       = .ok (c2resp.1, c2resp.2) ∧ c2resp.1.additional = c2them ++ c2me) :=
  ⟨⟨by decide,
    (startChat_shared_secret_aead.1 cPrims c2me c2myPriv c2them c2eph c2prekey c2sig
      c2onetime c2sess c2out (by decide)).1⟩,
   ⟨by decide,
    (startChat_shared_secret_aead.2 cPrims c2me c2myPriv c2them c2store c2prekey c2onetime
      c2ephPub c2resp.1 c2resp.2 (by decide)).1⟩⟩
